import Mathlib

/-!
Shallow embedding of the TF-IDF weight calculator `calcwts.py` of the
CMSC476 search engine.  Python `Counter`s are modelled as insertion-ordered
association lists, Python `int`s as `Int`, Python floats as exact reals `ℝ`.
A run that would end in an uncaught Python exception (`ZeroDivisionError`,
`ValueError`, `math` domain error) is modelled by `none` / `Except.error ()`.
-/

namespace Calcwts

/-- A Python `Counter` as produced by `process_text_files`: an
insertion-ordered association list from token to integer count. -/
abbrev Table := List (String × Int)

/-- Key list of a table, in dict iteration order. -/
def keys (tbl : Table) : List String := tbl.map Prod.fst

/-- Whitespace in the sense of Python `str.strip()`, restricted to the
ASCII whitespace characters (space, tab, newline, carriage return,
vertical tab, form feed). -/
def isPySpace (c : Char) : Bool :=
  c = ' ' || c = Char.ofNat 9 || c = Char.ofNat 10 || c = Char.ofNat 13 ||
    c = Char.ofNat 11 || c = Char.ofNat 12

/-- Models Python `str.strip()`: drop whitespace from both ends. -/
def pyStrip (l : List Char) : List Char :=
  ((l.dropWhile isPySpace).reverse.dropWhile isPySpace).reverse

/-- Models Python `str.split(sep)` for a one-character separator: splits at
every occurrence, keeping empty parts, so `"a:b:c"` gives three parts and a
string with no separator gives one part. -/
def splitCh (sep : Char) : List Char → List (List Char)
  | [] => [[]]
  | c :: rest =>
      if c = sep then [] :: splitCh sep rest
      else
        match splitCh sep rest with
        | [] => [[c]]
        | g :: gs => (c :: g) :: gs

/-- Numeric value of a decimal digit character, `none` otherwise. -/
def digitVal? (ch : Char) : Option Nat :=
  if ch.isDigit then some (ch.toNat - Char.toNat '0') else none

/-- Value of a nonempty all-decimal-digit character list, `none` otherwise. -/
def digitsVal? (l : List Char) : Option Nat :=
  if l.isEmpty then none
  else l.foldl (fun acc ch => acc.bind (fun a => (digitVal? ch).map (fun d => a * 10 + d)))
    (some 0)

/-- Models CPython `int(s)` on an already stripped string: an optional sign
followed by decimal digits.  (Digit-group underscores and non-ASCII digits,
which CPython also accepts, are not modelled; they do not occur in this
pipeline's inputs.)  `none` is where `int` raises `ValueError`. -/
def pyInt? (l : List Char) : Option Int :=
  match l with
  | '-' :: rest => (digitsVal? rest).map (fun n => -(n : Int))
  | '+' :: rest => (digitsVal? rest).map (fun n => (n : Int))
  | l => (digitsVal? l).map (fun n => (n : Int))

/-- Colon-delimited parts of a stripped line: models
`line.strip().split(':')` at line 51 of `calcwts.py`. -/
def lineParts (line : String) : List (List Char) :=
  splitCh ':' (pyStrip line.data)

/-- Models lines 51–53 of `calcwts.py` for a single input line:
`parts = line.strip().split(':')`; when `len(parts) == 2` the token is
`parts[0].strip()` and the count is `int(parts[1].strip())`, where `int`
raises `ValueError` on a non-integer field (`Except.error ()`); any other
number of parts silently skips the line (`Except.ok none`). -/
def parseLine (line : String) : Except Unit (Option (String × Int)) :=
  match lineParts line with
  | [p0, p1] =>
      match pyInt? (pyStrip p1) with
      | some n => Except.ok (some (String.mk (pyStrip p0), n))
      | none => Except.error ()
  | _ => Except.ok none

/-- Models `token_count[token] += count` on a `Counter`: update the entry in
place when the key exists, otherwise append it (dict insertion order). -/
def addCount (tbl : Table) (token : String) (count : Int) : Table :=
  match tbl with
  | [] => [(token, count)]
  | (t, v) :: rest =>
      if t = token then (t, v + count) :: rest else (t, v) :: addCount rest token count

/-- Models lines 51–55 of `calcwts.py` for one line: parse, then accumulate
the count when the token is not a stopword and has length greater than 1. -/
def processLine (excluded_tokens : List String) (tbl : Table) (line : String) :
    Except Unit Table :=
  match parseLine line with
  | Except.error e => Except.error e
  | Except.ok none => Except.ok tbl
  | Except.ok (some (token, count)) =>
      if token ∉ excluded_tokens ∧ 1 < token.length then Except.ok (addCount tbl token count)
      else Except.ok tbl

/-- Models the `for line in file` loop of `process_text_files`: lines are
processed in order and an uncaught `ValueError` aborts the whole run. -/
def processLines (excluded_tokens : List String) (tbl : Table) :
    List String → Except Unit Table
  | [] => Except.ok tbl
  | line :: rest =>
      match processLine excluded_tokens tbl line with
      | Except.error e => Except.error e
      | Except.ok tbl2 => processLines excluded_tokens tbl2 rest

/-- Models `process_text_files` (lines 30–57): each file, given as its name
with its list of lines, contributes one table keyed by its name. -/
def process_text_files (excluded_tokens : List String)
    (files : List (String × List String)) : Except Unit (List (String × Table)) :=
  files.mapM (fun f => (processLines excluded_tokens [] f.2).map (fun tbl => (f.1, tbl)))

/-- Models the inner loop of `calculate_document_frequencies`: for one
document, `document_frequencies[token] += 1` for every key of its counter. -/
def bumpDoc (document_frequencies : String → Nat) (tbl : Table) : String → Nat :=
  fun t => document_frequencies t + (keys tbl).count t

/-- Models `calculate_document_frequencies` (lines 80–99): fold over the
documents' counters, bumping each present key once per document. -/
def calculate_document_frequencies (individual_text_data : List (String × Table)) :
    String → Nat :=
  (individual_text_data.map Prod.snd).foldl bumpDoc (fun _ => 0)

/-- Models `total_terms = sum(token_counts.values())`, line 118. -/
def doc_total (tbl : Table) : Int := (tbl.map Prod.snd).sum

/-- Models line 126: `tf = math.log(1 + (count / total_terms))`. -/
noncomputable def tf (count total_terms : Int) : ℝ :=
  Real.log (1 + (count : ℝ) / (total_terms : ℝ))

/-- Models lines 129–132: `idf = log(total_documents / df) + 1` when
`total_documents == df`, otherwise `idf = log(total_documents / df)`. -/
noncomputable def idf (total_documents df_t : Nat) : ℝ :=
  if total_documents = df_t then
    Real.log ((total_documents : ℝ) / (df_t : ℝ)) + 1
  else
    Real.log ((total_documents : ℝ) / (df_t : ℝ))

/-- Models line 134: `tf_idf = tf * idf` for one table entry. -/
noncomputable def score (document_frequencies : String → Nat) (total_documents : Nat)
    (total_terms : Int) (p : String × Int) : ℝ :=
  tf p.2 total_terms * idf total_documents (document_frequencies p.1)

/-- Intermediate per-token scores of one document (lines 125–135). -/
noncomputable def doc_scores (document_frequencies : String → Nat) (total_documents : Nat)
    (tbl : Table) : List (String × ℝ) :=
  tbl.map (fun p => (p.1, score document_frequencies total_documents (doc_total tbl) p))

/-- Models `sum_of_squares += tf_idf ** 2` accumulated over a list. -/
noncomputable def sum_of_squares (l : List ℝ) : ℝ := (l.map (fun x => x ^ 2)).sum

/-- Models line 139: `norm = math.sqrt(sum_of_squares)` for one document. -/
noncomputable def doc_norm (document_frequencies : String → Nat) (total_documents : Nat)
    (tbl : Table) : ℝ :=
  Real.sqrt (sum_of_squares
    ((doc_scores document_frequencies total_documents tbl).map Prod.snd))

open Classical in
/-- Models the body of the per-document loop of `calculate_tf_idf`
(lines 117–141).  `none` models an uncaught Python exception: the
`ZeroDivisionError` from `count / total_terms` when the table is nonempty
and `total_terms == 0`; the `math.log` domain `ValueError` when
`1 + count / total_terms <= 0` (possible with negative counts); the
`ZeroDivisionError` or domain error in the `idf` computation when
`total_documents / df` is not positive (zero document frequency or an
empty corpus); and the `ZeroDivisionError` from `tf_idf / norm` at line 140
when the norm is `0.0` while the document has tokens.  An empty table
reaches no division at all and yields the empty score dict. -/
noncomputable def calculate_tf_idf_doc (document_frequencies : String → Nat)
    (total_documents : Nat) (tbl : Table) : Option (List (String × ℝ)) :=
  if tbl = [] then some []
  else if doc_total tbl = 0 then none
  else if ∃ p ∈ tbl, 1 + (p.2 : ℝ) / (doc_total tbl : ℝ) ≤ 0 then none
  else if ∃ p ∈ tbl, (total_documents : ℝ) / (document_frequencies p.1 : ℝ) ≤ 0 then none
  else if doc_norm document_frequencies total_documents tbl = 0 then none
  else some ((doc_scores document_frequencies total_documents tbl).map
      (fun q => (q.1, q.2 / doc_norm document_frequencies total_documents tbl)))

/-- Models `calculate_tf_idf` (lines 102–143): the per-document computation
applied to every document, aborting on the first exception. -/
noncomputable def calculate_tf_idf (individual_text_data : List (String × Table))
    (document_frequencies : String → Nat) (total_documents : Nat) :
    Option (List (String × List (String × ℝ))) :=
  individual_text_data.mapM (fun d =>
    (calculate_tf_idf_doc document_frequencies total_documents d.2).map
      (fun out => (d.1, out)))

/-- Dict lookup with default 0 (used only at keys known to be present). -/
def lookup0 (scored : List (String × ℝ)) (t : String) : ℝ :=
  ((scored.find? (fun q => q.1 = t)).map Prod.snd).getD 0

/-- Models line 165: `{token: tf_idf_scores[file_name][token] for token in
token_counts}` — the scores re-keyed by the document's own tokens. -/
def filtered_scores (tbl : Table) (scored : List (String × ℝ)) : List (String × ℝ) :=
  tbl.map (fun p => (p.1, lookup0 scored p.1))

open Classical in
/-- Models line 72 of `export_sorted_counts`: the scored tokens sorted by
weight in descending order; the output file has one line per pair. -/
noncomputable def export_sorted (token_tf_idf : List (String × ℝ)) : List (String × ℝ) :=
  token_tf_idf.insertionSort (fun a b => b.2 ≤ a.2)

/-! ### Helper lemmas about the line parser -/

lemma parseLine_skip {line : String} (h : (lineParts line).length ≠ 2) :
    parseLine line = Except.ok none := by
  unfold parseLine
  rcases hl : lineParts line with _ | ⟨p0, _ | ⟨p1, _ | ⟨p2, tl⟩⟩⟩
  · rfl
  · rfl
  · exact absurd (by rw [hl]; rfl) h
  · rfl

lemma parseLine_eq_of_two {line : String} {p0 p1 : List Char}
    (hl : lineParts line = [p0, p1]) :
    parseLine line =
      match pyInt? (pyStrip p1) with
      | some n => Except.ok (some (String.mk (pyStrip p0), n))
      | none => Except.error () := by
  unfold parseLine
  rw [hl]

lemma processLine_skip (excluded_tokens : List String) (tbl : Table) {line : String}
    (h : (lineParts line).length ≠ 2) :
    processLine excluded_tokens tbl line = Except.ok tbl := by
  unfold processLine
  rw [parseLine_skip h]

/-- C8: an input line that does not split into exactly two colon-delimited
parts is skipped silently: deleting it from the file leaves the result of
processing the remaining lines (and hence all accumulated counts)
unchanged. -/
theorem c8_malformed_line_skipped (excluded_tokens : List String) (tbl : Table)
    (pre suf : List String) (line : String)
    (h : (lineParts line).length ≠ 2) :
    processLines excluded_tokens tbl (pre ++ line :: suf) =
      processLines excluded_tokens tbl (pre ++ suf) := by
  induction pre generalizing tbl with
  | nil =>
      show processLines excluded_tokens tbl (line :: suf) = processLines excluded_tokens tbl suf
      show (match processLine excluded_tokens tbl line with
        | Except.error e => Except.error e
        | Except.ok tbl2 => processLines excluded_tokens tbl2 suf) =
          processLines excluded_tokens tbl suf
      rw [processLine_skip excluded_tokens tbl h]
  | cons a pre ih =>
      show processLines excluded_tokens tbl (a :: (pre ++ line :: suf)) =
        processLines excluded_tokens tbl (a :: (pre ++ suf))
      unfold processLines
      cases processLine excluded_tokens tbl a with
      | error e => rfl
      | ok tbl2 => exact ih tbl2

/-- C8 witness: deleting the colon-free line `"badline"` from a concrete
file does not change the processing result. -/
theorem c8_malformed_line_skipped_witness :
    (lineParts "badline").length ≠ 2 ∧
      processLines [] [] ["ab:2", "badline", "cd:3"] =
        processLines [] [] ["ab:2", "cd:3"] :=
  ⟨by decide, c8_malformed_line_skipped [] [] ["ab:2"] ["cd:3"] "badline" (by decide)⟩

/-- C9: a document whose table is empty after filtering yields the empty
score dict with no error (no division is performed), and its exported,
weight-sorted output is empty. -/
theorem c9_empty_document (document_frequencies : String → Nat) (total_documents : Nat)
    (scored : List (String × ℝ)) :
    calculate_tf_idf_doc document_frequencies total_documents [] = some [] ∧
      filtered_scores [] scored = [] ∧
      export_sorted (filtered_scores [] scored) = [] :=
  ⟨rfl, rfl, rfl⟩

/-- C10: a line that splits into exactly two colon-delimited parts but whose
second field is not an integer raises `ValueError` (modelled
`Except.error ()`), aborting the whole run; a line is skipped silently
(`Except.ok none`) only when the split does not yield exactly two parts. -/
theorem c10_value_error_aborts :
    (lineParts "cat: dog").length = 2 ∧
      parseLine "cat: dog" = Except.error () ∧
      processLines [] [] ["ab:2", "cat: dog", "cd:3"] = Except.error () ∧
      (∀ line : String, (lineParts line).length = 2 → parseLine line ≠ Except.ok none) := by
  refine ⟨by decide, rfl, rfl, ?_⟩
  intro line hlen heq
  rcases hl : lineParts line with _ | ⟨p0, _ | ⟨p1, _ | ⟨p2, tl⟩⟩⟩
  · rw [hl] at hlen; simp at hlen
  · rw [hl] at hlen; simp at hlen
  · rw [parseLine_eq_of_two hl] at heq
    revert heq
    cases pyInt? (pyStrip p1) <;> simp
  · rw [hl] at hlen; simp at hlen

/-- C10 witness: the theorem's last conjunct applied to the concrete
two-part line `"cat: dog"`. -/
theorem c10_value_error_aborts_witness :
    (lineParts "cat: dog").length = 2 ∧ parseLine "cat: dog" ≠ Except.ok none :=
  ⟨by decide, c10_value_error_aborts.2.2.2 "cat: dog" (by decide)⟩

/-! ### The tf and idf formulas (claims C3, C4, C5) -/

/-- C3: the idf of a token is `ln(total_documents / df) + 1` when
`df == total_documents` and `ln(total_documents / df)` otherwise; in the
degenerate single-document corpus a token present in that document has
`df = 1 = total_documents`, hence `idf = ln(1/1) + 1 = 1`, not `0`. -/
theorem c3_idf_formula :
    (∀ total_documents df_t : Nat, total_documents = df_t →
        idf total_documents df_t =
          Real.log ((total_documents : ℝ) / (df_t : ℝ)) + 1) ∧
      (∀ total_documents df_t : Nat, total_documents ≠ df_t →
        idf total_documents df_t = Real.log ((total_documents : ℝ) / (df_t : ℝ))) ∧
      idf 1 1 = 1 ∧ idf 1 1 ≠ 0 := by
  refine ⟨fun N d h => by simp [idf, h], fun N d h => by simp [idf, h], ?_, ?_⟩
  · simp [idf]
  · simp [idf]

/-- C3 witness: both idf branches evaluated at concrete document counts. -/
theorem c3_idf_formula_witness :
    idf 2 2 = Real.log (((2 : Nat) : ℝ) / ((2 : Nat) : ℝ)) + 1 ∧
      idf 3 1 = Real.log (((3 : Nat) : ℝ) / ((1 : Nat) : ℝ)) :=
  ⟨c3_idf_formula.1 2 2 rfl, c3_idf_formula.2.1 3 1 (by decide)⟩

/-- C4 counterexample: the loader accepts the line `"ab:0"`, so a table can
contain a token with count 0 (here in a document whose terms sum to 3); the
term frequency computed for it is `ln(1 + 0/3) = 0`, which does not lie in
the half-open interval `(0, ln 2]`. -/
theorem c4_tf_range_counterexample :
    ("ab", (0 : Int)) ∈ ([("ab", 0), ("cd", 3)] : Table) ∧
      doc_total [("ab", 0), ("cd", 3)] = 3 ∧
      tf 0 (doc_total [("ab", 0), ("cd", 3)]) = 0 := by
  refine ⟨by decide, rfl, ?_⟩
  simp [tf, doc_total]

/-- C4 (amended): for every token entry `(t, c)` of a table of nonnegative
counts, the term frequency is `ln(1 + c / total_terms)`, and when the count
is at least 1 this value lies in `(0, ln 2]`; a zero-count entry instead
gets `tf = 0`. -/
theorem c4_tf_range (tbl : Table) (t : String) (c : Int)
    (hpos : ∀ p ∈ tbl, 0 ≤ p.2) (hmem : (t, c) ∈ tbl) (hc : 1 ≤ c) :
    tf c (doc_total tbl) = Real.log (1 + (c : ℝ) / ((doc_total tbl : Int) : ℝ)) ∧
      0 < tf c (doc_total tbl) ∧ tf c (doc_total tbl) ≤ Real.log 2 := by
  have hct : c ≤ doc_total tbl := by
    refine List.single_le_sum ?_ _ (List.mem_map_of_mem Prod.snd hmem)
    intro x hx
    obtain ⟨p, hp, rfl⟩ := List.mem_map.1 hx
    exact hpos p hp
  have h0 : (0 : Int) < doc_total tbl := lt_of_lt_of_le (by norm_num) (le_trans hc hct)
  have hTpos : (0 : ℝ) < ((doc_total tbl : Int) : ℝ) := by exact_mod_cast h0
  have hcR : (1 : ℝ) ≤ (c : ℝ) := by exact_mod_cast hc
  have hdiv_pos : 0 < (c : ℝ) / ((doc_total tbl : Int) : ℝ) :=
    div_pos (by linarith) hTpos
  have hdiv_le : (c : ℝ) / ((doc_total tbl : Int) : ℝ) ≤ 1 :=
    (div_le_one hTpos).2 (by exact_mod_cast hct)
  refine ⟨rfl, ?_, ?_⟩
  · exact Real.log_pos (by linarith)
  · unfold tf
    exact Real.log_le_log (by linarith) (by linarith)

/-- C4 witness: the amended bounds at a concrete two-token document. -/
theorem c4_tf_range_witness :
    (∀ p ∈ ([("ab", 1), ("cd", 2)] : Table), 0 ≤ p.2) ∧
      (("ab", (1 : Int)) ∈ ([("ab", 1), ("cd", 2)] : Table)) ∧
      (tf 1 (doc_total [("ab", 1), ("cd", 2)]) =
          Real.log (1 + ((1 : Int) : ℝ) / ((doc_total [("ab", 1), ("cd", 2)] : Int) : ℝ)) ∧
        0 < tf 1 (doc_total [("ab", 1), ("cd", 2)]) ∧
        tf 1 (doc_total [("ab", 1), ("cd", 2)]) ≤ Real.log 2) :=
  ⟨by decide, by decide, c4_tf_range [("ab", 1), ("cd", 2)] "ab" 1 (by decide) (by decide)
    (by decide)⟩

lemma tf_mono_aux {c c' R : ℝ} (hR : 0 ≤ R) (hc : 0 < c) (hcc : c ≤ c') :
    c / (c + R) ≤ c' / (c' + R) := by
  have hc' : 0 < c' := lt_of_lt_of_le hc hcc
  rw [div_le_div_iff₀ (by linarith) (by linarith)]
  nlinarith

/-- C5: holding the other tokens' counts fixed (all counts nonnegative),
increasing a token's raw count never decreases its term frequency, even
though the larger count also increases the document's term total. -/
theorem c5_tf_monotone (pre post : Table) (t : String) (c c' : Int)
    (hpre : ∀ p ∈ pre, 0 ≤ p.2) (hpost : ∀ p ∈ post, 0 ≤ p.2)
    (hc : 0 < c) (hcc : c ≤ c') :
    tf c (doc_total (pre ++ (t, c) :: post)) ≤
      tf c' (doc_total (pre ++ (t, c') :: post)) := by
  have hRnn : (0 : Int) ≤ (pre.map Prod.snd).sum + (post.map Prod.snd).sum := by
    refine add_nonneg (List.sum_nonneg ?_) (List.sum_nonneg ?_) <;>
      · intro x hx
        obtain ⟨p, hp, rfl⟩ := List.mem_map.1 hx
        first
          | exact hpre p hp
          | exact hpost p hp
  have htot : ∀ d : Int, doc_total (pre ++ (t, d) :: post) =
      d + ((pre.map Prod.snd).sum + (post.map Prod.snd).sum) := by
    intro d
    simp [doc_total]
    ring
  rw [htot c, htot c']
  set R : Int := (pre.map Prod.snd).sum + (post.map Prod.snd).sum with hR
  have hcR : (0 : ℝ) < (c : ℝ) := by exact_mod_cast hc
  have hccR : (c : ℝ) ≤ (c' : ℝ) := by exact_mod_cast hcc
  have hRR : (0 : ℝ) ≤ (R : ℝ) := by exact_mod_cast hRnn
  have hkey : (c : ℝ) / ((c : ℝ) + (R : ℝ)) ≤ (c' : ℝ) / ((c' : ℝ) + (R : ℝ)) :=
    tf_mono_aux hRR hcR hccR
  have hdpos : 0 < (c : ℝ) / ((c : ℝ) + (R : ℝ)) := div_pos hcR (by linarith)
  unfold tf
  push_cast
  exact Real.log_le_log (by linarith) (by linarith)

/-- C5 witness: raising the count of `"ab"` from 1 to 3 beside a fixed
token `"xx"` of count 2 does not decrease its term frequency. -/
theorem c5_tf_monotone_witness :
    (∀ p ∈ ([("xx", 2)] : Table), 0 ≤ p.2) ∧ (0 : Int) < 1 ∧ (1 : Int) ≤ 3 ∧
      tf 1 (doc_total ([("xx", 2)] ++ ("ab", 1) :: [])) ≤
        tf 3 (doc_total ([("xx", 2)] ++ ("ab", 3) :: [])) :=
  ⟨by decide, by decide, by decide,
    c5_tf_monotone [("xx", 2)] [] "ab" 1 3 (by decide) (by decide) (by decide) (by decide)⟩

/-! ### Document frequency aggregation (claim C6) -/

lemma df_foldl (l : List Table) (g : String → Nat) (t : String) :
    (l.foldl bumpDoc g) t = g t + (l.map (fun tbl => (keys tbl).count t)).sum := by
  induction l generalizing g with
  | nil => simp
  | cons tbl rest ih =>
      simp only [List.foldl_cons, List.map_cons, List.sum_cons, ih, bumpDoc]
      omega

lemma sum_indicator_countP (l : List Table) (t : String)
    (h : ∀ tbl ∈ l, (keys tbl).count t = if t ∈ keys tbl then 1 else 0) :
    (l.map (fun tbl => (keys tbl).count t)).sum =
      l.countP (fun tbl => decide (t ∈ keys tbl)) := by
  induction l with
  | nil => simp
  | cons a rest ih =>
      simp only [List.map_cons, List.sum_cons, List.countP_cons]
      rw [h a (by simp), ih (fun tbl htbl => h tbl (by simp [htbl]))]
      by_cases hm : t ∈ keys a
      · simp [hm]
        omega
      · simp [hm]

/-- C6: the corpus document frequency of a token counts, with weight
exactly 1 each, the documents whose table has the token as a key,
regardless of the token's count there; consequently a token present in at
least one document satisfies `1 ≤ df[t] ≤ total_documents`. -/
theorem c6_df_bounds (individual_text_data : List (String × Table)) (t : String)
    (hnd : ∀ d ∈ individual_text_data, (keys d.2).Nodup)
    (hex : ∃ d ∈ individual_text_data, t ∈ keys d.2) :
    calculate_document_frequencies individual_text_data t =
        (individual_text_data.map Prod.snd).countP (fun tbl => decide (t ∈ keys tbl)) ∧
      1 ≤ calculate_document_frequencies individual_text_data t ∧
      calculate_document_frequencies individual_text_data t ≤
        individual_text_data.length := by
  have hchar : calculate_document_frequencies individual_text_data t =
      (individual_text_data.map Prod.snd).countP (fun tbl => decide (t ∈ keys tbl)) := by
    have hcnt : ∀ tbl ∈ individual_text_data.map Prod.snd,
        (keys tbl).count t = if t ∈ keys tbl then 1 else 0 := by
      intro tbl htbl
      obtain ⟨d, hd, rfl⟩ := List.mem_map.1 htbl
      by_cases hmem : t ∈ keys d.2
      · rw [if_pos hmem, List.count_eq_one_of_mem (hnd d hd) hmem]
      · rw [if_neg hmem, List.count_eq_zero_of_not_mem hmem]
    unfold calculate_document_frequencies
    rw [df_foldl, sum_indicator_countP _ _ hcnt]
    omega
  refine ⟨hchar, ?_, ?_⟩
  · rw [hchar]
    refine Nat.one_le_iff_ne_zero.2 (Nat.pos_iff_ne_zero.1 (List.countP_pos_iff.2 ?_))
    obtain ⟨d, hd, hmem⟩ := hex
    exact ⟨d.2, List.mem_map_of_mem Prod.snd hd, by simpa using hmem⟩
  · rw [hchar]
    calc (individual_text_data.map Prod.snd).countP (fun tbl => decide (t ∈ keys tbl)) ≤
          (individual_text_data.map Prod.snd).length := List.countP_le_length _
      _ = individual_text_data.length := List.length_map _ _

/-- C6 witness: a token appearing 7 times in one document and twice in
another has document frequency 2, within the bounds. -/
theorem c6_df_bounds_witness :
    (∀ d ∈ ([("f1", [("ab", 2)]), ("f2", [("cd", 1), ("ab", 7)])] :
        List (String × Table)), (keys d.2).Nodup) ∧
      (∃ d ∈ ([("f1", [("ab", 2)]), ("f2", [("cd", 1), ("ab", 7)])] :
        List (String × Table)), "ab" ∈ keys d.2) ∧
      (calculate_document_frequencies
            [("f1", [("ab", 2)]), ("f2", [("cd", 1), ("ab", 7)])] "ab" =
          (([("f1", [("ab", 2)]), ("f2", [("cd", 1), ("ab", 7)])] :
              List (String × Table)).map Prod.snd).countP
            (fun tbl => decide ("ab" ∈ keys tbl)) ∧
        1 ≤ calculate_document_frequencies
            [("f1", [("ab", 2)]), ("f2", [("cd", 1), ("ab", 7)])] "ab" ∧
        calculate_document_frequencies
            [("f1", [("ab", 2)]), ("f2", [("cd", 1), ("ab", 7)])] "ab" ≤
          ([("f1", [("ab", 2)]), ("f2", [("cd", 1), ("ab", 7)])] :
            List (String × Table)).length) :=
  ⟨by decide, by decide,
    c6_df_bounds [("f1", [("ab", 2)]), ("f2", [("cd", 1), ("ab", 7)])] "ab"
      (by decide) (by decide)⟩

/-! ### Normalization (claims C2, C7, C1) -/

lemma sum_map_div (l : List ℝ) (c : ℝ) :
    (l.map (fun x => x / c)).sum = l.sum / c := by
  induction l with
  | nil => simp
  | cons a rest ih => simp [ih, add_div]

lemma sum_of_squares_nonneg (l : List ℝ) : 0 ≤ sum_of_squares l := by
  refine List.sum_nonneg ?_
  intro x hx
  obtain ⟨y, hy, rfl⟩ := List.mem_map.1 hx
  positivity

lemma sum_of_squares_div (l : List ℝ) (c : ℝ) :
    sum_of_squares (l.map (fun x => x / c)) = sum_of_squares l / c ^ 2 := by
  unfold sum_of_squares
  rw [List.map_map]
  have h1 : ((fun x => x ^ 2) ∘ fun x => x / c) = fun x => x ^ 2 / c ^ 2 := by
    funext x
    simp [div_pow]
  have h2 : (fun x => x ^ 2 / c ^ 2) = ((fun y => y / c ^ 2) ∘ fun x => x ^ 2) := rfl
  rw [h1, h2, ← List.map_map, sum_map_div]

lemma sq_le_sum_of_squares (l : List ℝ) (x : ℝ) (hx : x ∈ l) :
    x ^ 2 ≤ sum_of_squares l := by
  refine List.single_le_sum ?_ _ (List.mem_map_of_mem (fun y => y ^ 2) hx)
  intro y hy
  obtain ⟨z, hz, rfl⟩ := List.mem_map.1 hy
  positivity

lemma doc_scores_snd (document_frequencies : String → Nat) (total_documents : Nat)
    (tbl : Table) :
    (doc_scores document_frequencies total_documents tbl).map Prod.snd =
      tbl.map (score document_frequencies total_documents (doc_total tbl)) := by
  unfold doc_scores
  rw [List.map_map]
  rfl

/-- C2: every successfully scored document with at least one nonzero weight
has an L2-normalized weight vector: the square root of the sum of squared
weights equals 1 within `1e-9` (here: exactly). -/
theorem c2_unit_norm (document_frequencies : String → Nat) (total_documents : Nat)
    (tbl : Table) (out : List (String × ℝ))
    (h : calculate_tf_idf_doc document_frequencies total_documents tbl = some out)
    (hnz : ∃ p ∈ out, p.2 ≠ 0) :
    |Real.sqrt (sum_of_squares (out.map Prod.snd)) - 1| ≤ 1e-9 := by
  unfold calculate_tf_idf_doc at h
  split_ifs at h with h1 h2 h3 h4 h5
  · obtain rfl : ([] : List (String × ℝ)) = out := Option.some.inj h
    simp at hnz
  · obtain rfl := Option.some.inj h
    have hS0 : 0 ≤ sum_of_squares
        ((doc_scores document_frequencies total_documents tbl).map Prod.snd) :=
      sum_of_squares_nonneg _
    have hSpos : 0 < sum_of_squares
        ((doc_scores document_frequencies total_documents tbl).map Prod.snd) := by
      rcases lt_or_eq_of_le hS0 with hlt | heq
      · exact hlt
      · exact absurd (show doc_norm document_frequencies total_documents tbl = 0 by
          unfold doc_norm
          rw [← heq, Real.sqrt_zero]) h5
    have hmap : ((doc_scores document_frequencies total_documents tbl).map
          (fun q => (q.1, q.2 / doc_norm document_frequencies total_documents tbl))).map
            Prod.snd =
        ((doc_scores document_frequencies total_documents tbl).map Prod.snd).map
          (fun x => x / doc_norm document_frequencies total_documents tbl) := by
      rw [List.map_map, List.map_map]
      rfl
    rw [hmap, sum_of_squares_div]
    have hn2 : doc_norm document_frequencies total_documents tbl ^ 2 =
        sum_of_squares
          ((doc_scores document_frequencies total_documents tbl).map Prod.snd) := by
      unfold doc_norm
      exact Real.sq_sqrt hS0
    rw [hn2, div_self (ne_of_gt hSpos), Real.sqrt_one]
    norm_num

/-! ### A concrete successfully scored document, used by several witnesses -/

lemma log_two_pos : (0 : ℝ) < Real.log 2 := Real.log_pos (by norm_num)

lemma ex_tf : tf 1 1 = Real.log 2 := by
  unfold tf
  norm_num

lemma ex_idf : idf 2 1 = Real.log 2 := by
  unfold idf
  norm_num

lemma ex_scores :
    doc_scores (fun _ => 1) 2 [("ab", 1)] = [("ab", Real.log 2 * Real.log 2)] := by
  unfold doc_scores score
  simp [doc_total, ex_tf, ex_idf]

lemma ex_norm : doc_norm (fun _ => 1) 2 [("ab", 1)] = Real.log 2 * Real.log 2 := by
  have h : (doc_scores (fun _ => 1) 2 [("ab", 1)]).map Prod.snd =
      [Real.log 2 * Real.log 2] := by
    rw [ex_scores]
    rfl
  unfold doc_norm
  rw [h]
  have h2 : sum_of_squares [Real.log 2 * Real.log 2] = (Real.log 2 * Real.log 2) ^ 2 := by
    simp [sum_of_squares]
  rw [h2, Real.sqrt_sq (mul_self_nonneg _)]

lemma ex_eval : calculate_tf_idf_doc (fun _ => 1) 2 [("ab", 1)] = some [("ab", 1)] := by
  have hlog : Real.log 2 ≠ 0 := ne_of_gt log_two_pos
  have hne : ([("ab", (1 : Int))] : Table) ≠ [] := by simp
  have htot : doc_total [("ab", 1)] ≠ 0 := by decide
  have h3 : ¬∃ p ∈ ([("ab", (1 : Int))] : Table),
      1 + (p.2 : ℝ) / (doc_total [("ab", 1)] : ℝ) ≤ 0 := by
    push_neg
    intro p hp
    simp at hp
    subst hp
    norm_num [doc_total]
  have h4 : ¬∃ p ∈ ([("ab", (1 : Int))] : Table),
      ((2 : Nat) : ℝ) / (((fun _ => (1 : Nat)) p.1 : Nat) : ℝ) ≤ 0 := by
    push_neg
    intro p hp
    norm_num
  have h5 : doc_norm (fun _ => 1) 2 [("ab", 1)] ≠ 0 := by
    rw [ex_norm]
    exact mul_ne_zero hlog hlog
  unfold calculate_tf_idf_doc
  rw [if_neg hne, if_neg htot, if_neg h3, if_neg h4, if_neg h5, ex_scores, ex_norm]
  simp [div_self (mul_ne_zero hlog hlog)]

/-- C2 witness: the single-token document `{"ab": 1}` in a two-document
corpus scores successfully, has a nonzero weight, and its weight vector has
unit L2 norm. -/
theorem c2_unit_norm_witness :
    calculate_tf_idf_doc (fun _ => 1) 2 [("ab", 1)] = some [("ab", (1 : ℝ))] ∧
      (∃ p ∈ [("ab", (1 : ℝ))], p.2 ≠ 0) ∧
      |Real.sqrt (sum_of_squares ([("ab", (1 : ℝ))].map Prod.snd)) - 1| ≤ 1e-9 :=
  ⟨ex_eval, ⟨("ab", 1), by simp⟩, c2_unit_norm _ 2 _ _ ex_eval ⟨("ab", 1), by simp⟩⟩

/-- C7: for every document scored without error, the token list of the
resulting ScoredDocument is exactly the key list of the document's filtered
frequency table, and the re-keying step at line 165 preserves it as well:
no tokens are added and none are dropped. -/
theorem c7_vocabulary_preserved (document_frequencies : String → Nat)
    (total_documents : Nat) (tbl : Table) (out : List (String × ℝ))
    (h : calculate_tf_idf_doc document_frequencies total_documents tbl = some out) :
    out.map Prod.fst = keys tbl ∧
      (filtered_scores tbl out).map Prod.fst = keys tbl := by
  constructor
  · unfold calculate_tf_idf_doc at h
    split_ifs at h with h1 h2 h3 h4 h5
    · obtain rfl : ([] : List (String × ℝ)) = out := Option.some.inj h
      simp [h1, keys]
    · obtain rfl := Option.some.inj h
      unfold doc_scores keys
      rw [List.map_map, List.map_map]
      rfl
  · unfold filtered_scores keys
    rw [List.map_map]
    rfl

/-- C7 witness: vocabulary preservation at the concrete document
`{"ab": 1}`. -/
theorem c7_vocabulary_preserved_witness :
    calculate_tf_idf_doc (fun _ => 1) 2 [("ab", 1)] = some [("ab", (1 : ℝ))] ∧
      ([("ab", (1 : ℝ))].map Prod.fst = keys [("ab", (1 : Int))] ∧
        (filtered_scores [("ab", 1)] [("ab", (1 : ℝ))]).map Prod.fst =
          keys [("ab", (1 : Int))]) :=
  ⟨ex_eval, c7_vocabulary_preserved _ 2 _ _ ex_eval⟩

/-! ### The zero-norm edge case (claim C1) -/

/-- C1 counterexample: on the degenerate document whose every count is 0
(the only way all tf–idf scores of a nonempty document could be zero), the
code does not define explicit fallback behavior for the weight division —
it raises `ZeroDivisionError` (modelled `none`, here already at the
`count / total_terms` division) instead of producing output. -/
theorem c1_degenerate_raises :
    calculate_tf_idf_doc (fun _ => 1) 1 [("ab", 0)] = none := rfl

lemma idf_ne_zero (total_documents df_t : Nat)
    (h : 0 < (total_documents : ℝ) / (df_t : ℝ)) : idf total_documents df_t ≠ 0 := by
  have hd : (df_t : ℝ) ≠ 0 := by
    intro h0
    rw [h0, div_zero] at h
    exact lt_irrefl _ h
  unfold idf
  by_cases hnd : total_documents = df_t
  · rw [if_pos hnd, hnd, div_self hd, Real.log_one]
    norm_num
  · rw [if_neg hnd]
    refine Real.log_ne_zero_of_pos_of_ne_one h ?_
    intro h1
    rw [div_eq_one_iff_eq hd] at h1
    exact hnd (Nat.cast_inj.mp h1)

lemma score_ne_zero (document_frequencies : String → Nat) (total_documents : Nat)
    (tbl : Table) (p : String × Int)
    (htot : doc_total tbl ≠ 0) (hc : p.2 ≠ 0)
    (htf : 0 < 1 + (p.2 : ℝ) / (doc_total tbl : ℝ))
    (hidf : 0 < (total_documents : ℝ) / (document_frequencies p.1 : ℝ)) :
    score document_frequencies total_documents (doc_total tbl) p ≠ 0 := by
  unfold score
  refine mul_ne_zero ?_ (idf_ne_zero _ _ hidf)
  unfold tf
  refine Real.log_ne_zero_of_pos_of_ne_one htf ?_
  intro h1
  have hdiv : (p.2 : ℝ) / (doc_total tbl : ℝ) = 0 := by linarith
  rcases div_eq_zero_iff.1 hdiv with h0 | h0
  · exact hc (Int.cast_eq_zero.mp h0)
  · exact Int.cast_ne_zero.2 htot h0

/-- C1 (amended): the zero-norm weight division can never actually execute:
whenever a nonempty document reaches the normalization step (nonzero term
total and no `math.log` domain error), its norm is nonzero, the per-token
division is well defined and the computation succeeds — the exact-real
output contains no NaN or infinity.  In the degenerate all-zero-count case
the code instead aborts with `ZeroDivisionError` before normalization;
it defines no explicit fallback. -/
theorem c1_norm_division_defined (document_frequencies : String → Nat)
    (total_documents : Nat) (tbl : Table)
    (hne : tbl ≠ [])
    (htot : doc_total tbl ≠ 0)
    (htf : ∀ p ∈ tbl, 0 < 1 + (p.2 : ℝ) / (doc_total tbl : ℝ))
    (hidf : ∀ p ∈ tbl, 0 < (total_documents : ℝ) / (document_frequencies p.1 : ℝ)) :
    doc_norm document_frequencies total_documents tbl ≠ 0 ∧
      ∃ out, calculate_tf_idf_doc document_frequencies total_documents tbl = some out := by
  obtain ⟨p₀, hp₀, hc₀⟩ : ∃ p ∈ tbl, p.2 ≠ 0 := by
    by_contra hall
    push_neg at hall
    refine htot ?_
    unfold doc_total
    refine List.sum_eq_zero ?_
    intro x hx
    obtain ⟨p, hp, rfl⟩ := List.mem_map.1 hx
    exact hall p hp
  have hsc : score document_frequencies total_documents (doc_total tbl) p₀ ≠ 0 :=
    score_ne_zero _ _ _ _ htot hc₀ (htf p₀ hp₀) (hidf p₀ hp₀)
  have hmem : score document_frequencies total_documents (doc_total tbl) p₀ ∈
      (doc_scores document_frequencies total_documents tbl).map Prod.snd := by
    rw [doc_scores_snd]
    exact List.mem_map_of_mem _ hp₀
  have hSpos : 0 < sum_of_squares
      ((doc_scores document_frequencies total_documents tbl).map Prod.snd) :=
    lt_of_lt_of_le
      (lt_of_le_of_ne (sq_nonneg _) (Ne.symm (pow_ne_zero 2 hsc)))
      (sq_le_sum_of_squares _ _ hmem)
  have hnorm : doc_norm document_frequencies total_documents tbl ≠ 0 := by
    unfold doc_norm
    exact ne_of_gt (Real.sqrt_pos.2 hSpos)
  have h3 : ¬∃ p ∈ tbl, 1 + (p.2 : ℝ) / (doc_total tbl : ℝ) ≤ 0 := by
    push_neg
    exact fun p hp => htf p hp
  have h4 : ¬∃ p ∈ tbl, (total_documents : ℝ) / (document_frequencies p.1 : ℝ) ≤ 0 := by
    push_neg
    exact fun p hp => hidf p hp
  refine ⟨hnorm, ⟨(doc_scores document_frequencies total_documents tbl).map
    (fun q => (q.1, q.2 / doc_norm document_frequencies total_documents tbl)), ?_⟩⟩
  unfold calculate_tf_idf_doc
  rw [if_neg hne, if_neg htot, if_neg h3, if_neg h4, if_neg hnorm]

/-- C1 witness: the amended statement at the concrete document `{"ab": 1}`
in a two-document corpus. -/
theorem c1_norm_division_defined_witness :
    ([("ab", (1 : Int))] : Table) ≠ [] ∧ doc_total [("ab", 1)] ≠ 0 ∧
      (∀ p ∈ ([("ab", (1 : Int))] : Table),
        0 < 1 + (p.2 : ℝ) / (doc_total [("ab", 1)] : ℝ)) ∧
      (∀ p ∈ ([("ab", (1 : Int))] : Table),
        0 < ((2 : Nat) : ℝ) / ((1 : Nat) : ℝ)) ∧
      (doc_norm (fun _ => 1) 2 [("ab", 1)] ≠ 0 ∧
        ∃ out, calculate_tf_idf_doc (fun _ => 1) 2 [("ab", 1)] = some out) := by
  have h3 : ∀ p ∈ ([("ab", (1 : Int))] : Table),
      0 < 1 + (p.2 : ℝ) / (doc_total [("ab", 1)] : ℝ) := by
    intro p hp
    simp at hp
    subst hp
    norm_num [doc_total]
  have h4 : ∀ p ∈ ([("ab", (1 : Int))] : Table),
      0 < ((2 : Nat) : ℝ) / ((1 : Nat) : ℝ) := by
    intro p hp
    norm_num
  exact ⟨by simp, by decide, h3, h4,
    c1_norm_division_defined (fun _ => 1) 2 [("ab", 1)] (by simp) (by decide) h3 h4⟩

end Calcwts
